import Mathlib

/-!
# Verification of the taildog polling/pagination/deduplication core

Shallow embedding of `main.go` of the taildog CLI tool (kamatama41/taildog).
The tool polls the Datadog Log Query API and prints newly arrived log
entries.  The embedded core is:

* the data model (`logsInfo`, `logInfo`, `logContent`, `config`);
* the request construction in `showLogs` (`buildRequest`,
  main.go lines 106-119);
* the status check of `getLogs`/`showLogs` (`checkStatus`,
  main.go lines 146-149);
* the duplicate filter of `showLogs` (`filterNew`, main.go lines 157-169);
* the state update `config.update` (main.go lines 230-243);
* the startup configuration `newConfig` (main.go lines 193-228);
* the polling driver `run` (main.go `main`, lines 71-101), producing a
  trace of fetch / sleep / render events, fuel-bounded because the follow
  loop of the source runs forever.

Timestamps are modelled as natural numbers (milliseconds since the epoch):
the source carries them as RFC 3339 strings that denote instants and only
ever copies them verbatim (`cfg.from = info.Logs[...].Content.Timestamp`),
so an abstract instant type is faithful.  Network transport and JSON
decoding are abstracted into a `Response` oracle (status code, body,
decoded page) handed to the driver as a list; `log.Fatal` is modelled as
the driver returning the error and emitting no further events.
-/

/-- `logContent` (main.go lines 55-62): the `content` object of one log
record.  `timestamp` is the instant in milliseconds.  The `attributes`
field (an arbitrary JSON map, passed through to the formatter untouched)
is out of the embedded core and omitted. -/
structure logContent where
  timestamp : Nat
  tags : List String
  host : String
  service : String
  message : String
deriving DecidableEq, Repr

/-- `logInfo` (main.go lines 50-53): one log record, an opaque `id` plus
its content. -/
structure logInfo where
  id : String
  content : logContent
deriving DecidableEq, Repr

/-- `logsInfo` (main.go lines 44-48): one decoded API response page:
the records, the pagination cursor `nextLogId` (empty string = no more
pages for this window), and a status string. -/
structure logsInfo where
  logs : List logInfo
  nextLogId : String
  status : String
deriving DecidableEq, Repr

/-- The empty `logsInfo` (`&logsInfo{}` in Go): what `newConfig`
initialises `lastInfo` to. -/
def emptyLogsInfo : logsInfo :=
  { logs := [], nextLogId := "", status := "" }

/-- `config` (main.go lines 32-42): the single mutable session state.
`timeFrom`/`timeTo` embed the `from`/`to` fields (`from` is a Lean
keyword).  The template and the two credential strings are rendering /
transport glue that the core never branches on and are omitted.
`lastInfo` is a plain field rather than an option: `newConfig` sets it to
`&logsInfo{}` and `update` only ever stores the (non-nil) fetched page,
so it is never nil at runtime. -/
structure config where
  query : String
  timeFrom : Nat
  timeTo : Nat
  limit : Nat
  follow : Bool
  lastInfo : logsInfo
deriving DecidableEq, Repr

/-- The outbound request payload built at the top of `showLogs`
(main.go lines 106-119): `query`, `limit`, `time.from`, `time.to`,
`sort` (always `"asc"`), and `startAt` present exactly when the previous
page's `nextLogId` was non-empty. -/
structure Request where
  query : String
  limit : Nat
  timeFrom : Nat
  timeTo : Nat
  sort : String
  startAt : Option String
deriving DecidableEq, Repr

/-- Request construction of `showLogs` (main.go lines 106-119): the
`startAt` cursor is included iff `cfg.lastInfo.NextLogId != ""`. -/
def buildRequest (cfg : config) : Request :=
  { query := cfg.query
    limit := cfg.limit
    timeFrom := cfg.timeFrom
    timeTo := cfg.timeTo
    sort := "asc"
    startAt := if cfg.lastInfo.nextLogId ≠ "" then some cfg.lastInfo.nextLogId else none }

/-- The duplicate filter of `showLogs` (main.go lines 157-169, the
`FilterLoop`): keep a record iff its `id` matches no record of the
previously fetched page (`lastInfo.Logs`).  In the source `lastInfo` is
never nil (see `config.lastInfo`), so the loop appends exactly the
records whose id is absent from `lastLogs`, in order. -/
def filterNew (lastLogs : List logInfo) (logs : List logInfo) : List logInfo :=
  logs.filter (fun l => ! lastLogs.any (fun lastLog => lastLog.id == l.id))

/-- The HTTP status check of `showLogs` (main.go lines 146-149): any
status outside the 2xx class (`res.StatusCode/100 != 2`) yields the error
`"unexpected status %d: %s"` built from the status code and the raw
response body; otherwise the body is decoded into the page. -/
def checkStatus (statusCode : Nat) (body : String) : Except String Unit :=
  if statusCode / 100 ≠ 2 then
    Except.error ("unexpected status " ++ toString statusCode ++ ": " ++ body)
  else
    Except.ok ()

/-- `config.update` (main.go lines 230-243): store the fetched page as
`lastInfo`; if its cursor is non-empty, keep everything else (still
paging); otherwise advance the window: `from` becomes the timestamp of
the last record when the page is non-empty (`cfg.from =
info.Logs[len(info.Logs)-1].Content.Timestamp`, copied verbatim, no
offset) and is untouched when the page is empty; `to` becomes the
current time. -/
def config.update (cfg : config) (info : logsInfo) (now : Nat) : config :=
  let cfg1 := { cfg with lastInfo := info }
  if info.nextLogId ≠ "" then
    cfg1
  else
    let cfg2 :=
      match info.logs.getLast? with
      | some l => { cfg1 with timeFrom := l.content.timestamp }
      | none => cfg1
    { cfg2 with timeTo := now }

/-- `newConfig` (main.go lines 193-228), restricted to the core fields:
`fromOpt`/`toOpt` are the parsed `--from`/`--to` flags (`none` = the flag
was the empty string).  Exactly one of them set is the startup error
`"both 'from' and 'to' must be set"`.  Both unset selects follow mode
with the initial window `[now - 30s, now]` (30000 ms).  Both set selects
fixed-window mode.  `lastInfo` starts as the empty page. -/
def newConfig (q : String) (lim : Nat) (fromOpt toOpt : Option Nat) (now : Nat) :
    Except String config :=
  match fromOpt, toOpt with
  | none, none =>
      Except.ok
        { query := q, timeFrom := now - 30000, timeTo := now, limit := lim
          follow := true, lastInfo := emptyLogsInfo }
  | some f, some t =>
      Except.ok
        { query := q, timeFrom := f, timeTo := t, limit := lim
          follow := false, lastInfo := emptyLogsInfo }
  | _, _ => Except.error ("both " ++ "'from' and " ++ "'to' must be set")

/-- One transport outcome handed to the driver: the HTTP status code, the
raw response body, and the page the body decodes to (used only when the
status is 2xx). -/
structure Response where
  status : Nat
  body : String
  page : logsInfo
deriving DecidableEq, Repr

/-- A 2xx response carrying the given page, for concrete runs. -/
def okResponse (page : logsInfo) : Response :=
  { status := 200, body := "", page := page }

/-- `getLogs`: the transport step of `showLogs` (main.go lines 126-155)
applied to one oracle outcome: check the status class, fail with the
formatted error on non-2xx, return the decoded page otherwise. -/
def getLogs (r : Response) : Except String logsInfo :=
  match checkStatus r.status r.body with
  | Except.error e => Except.error e
  | Except.ok _ => Except.ok r.page

/-- Observable events of one run: an inter-poll sleep, an outbound fetch
carrying its request payload, and a record rendered to stdout. -/
inductive Event where
  | sleep : Event
  | fetch : Request → Event
  | render : logInfo → Event
deriving DecidableEq, Repr

/-- `showLogs` (main.go lines 103-179): build the request, perform the
fetch (one `fetch` event), and on success render each record that
survives the duplicate filter against `cfg.lastInfo.Logs` (one `render`
event per surviving record, in page order).  Returns the fetched page,
which the caller later feeds to `config.update`. -/
def showLogs (cfg : config) (r : Response) : List Event × Except String logsInfo :=
  match getLogs r with
  | Except.error e => ([Event.fetch (buildRequest cfg)], Except.error e)
  | Except.ok page =>
      (Event.fetch (buildRequest cfg) ::
        (filterNew cfg.lastInfo.logs page.logs).map Event.render,
       Except.ok page)

/-- The follow loop of `main` (main.go lines 88-100): while `cfg.follow`,
sleep the interval, run `update` with the previously fetched page at the
current time `nowF i`, then fetch and render again.  `fuel` bounds the
number of iterations of the (otherwise infinite) source loop; the
response oracle `rs` is consumed one element per fetch, and an exhausted
oracle ends the observation.  A fetch error is `log.Fatal`: the run ends
immediately, returning the error. -/
def followLoop : Nat → config → logsInfo → List Response → (Nat → Nat) → Nat →
    List Event × Option String
  | 0, _, _, _, _, _ => ([], none)
  | fuel + 1, cfg, logs, rs, nowF, i =>
    if cfg.follow then
      match rs with
      | [] => ([], none)
      | r :: rs' =>
          let cfg' := cfg.update logs (nowF i)
          match showLogs cfg' r with
          | (evs, Except.error e) => (Event.sleep :: evs, some e)
          | (evs, Except.ok page) =>
              let rest := followLoop fuel cfg' page rs' nowF (i + 1)
              (Event.sleep :: evs ++ rest.1, rest.2)
    else ([], none)

/-- `main` (main.go lines 71-101) after configuration: one initial
`showLogs`, then the follow loop.  A failed first fetch is fatal
(`log.Fatal`).  The result is the event trace plus the fatal error, if
any. -/
def run (cfg : config) (rs : List Response) (nowF : Nat → Nat) (fuel : Nat) :
    List Event × Option String :=
  match rs with
  | [] => ([], none)
  | r :: rs' =>
      match showLogs cfg r with
      | (evs, Except.error e) => (evs, some e)
      | (evs, Except.ok page) =>
          let rest := followLoop fuel cfg page rs' nowF 0
          (evs ++ rest.1, rest.2)

/-- The records rendered in a trace, in order. -/
def rendersOf : List Event → List logInfo
  | [] => []
  | Event.render l :: t => l :: rendersOf t
  | _ :: t => rendersOf t

/-- Number of fetch events in a trace. -/
def countFetch (tr : List Event) : Nat :=
  tr.countP (fun e => match e with | Event.fetch _ => true | _ => false)

/-- Number of sleep events in a trace. -/
def countSleep (tr : List Event) : Nat :=
  tr.countP (fun e => match e with | Event.sleep => true | _ => false)

/-- The rendering of a whole run as a pure function of the successively
fetched pages: each page is filtered against the page before it (the
first against `prev`, the initial `lastInfo.Logs`, empty at startup) and
the surviving records are emitted in order.  This is what the driver's
`render` events amount to (see `rendersOf_run`). -/
def renderRun (prev : List logInfo) : List logsInfo → List logInfo
  | [] => []
  | p :: ps => filterNew prev p.logs ++ renderRun p.logs ps

/-- Record ids may recur only in adjacent pages: every two pages at
distance at least 2 in the sequence share no record id.  This captures
the spec's scenario of pages overlapping only at the boundary of
consecutive time windows. -/
def onlyAdjacentOverlap : List logsInfo → Bool
  | [] => true
  | p :: ps =>
      (ps.drop 1).all (fun q => p.logs.all (fun l => q.logs.all (fun m => l.id != m.id)))
        && onlyAdjacentOverlap ps

/-- Scanner for sleep placement: given a trace, `sleepGapsAux tr c`
returns, for each fetch event in order, the number of sleep events
since the previous fetch (the accumulator `c` counts sleeps seen so
far). -/
def sleepGapsAux : List Event → Nat → List Nat
  | [], _ => []
  | Event.sleep :: t, c => sleepGapsAux t (c + 1)
  | Event.render _ :: t, c => sleepGapsAux t c
  | Event.fetch _ :: t, c => c :: sleepGapsAux t 0

/-- For each fetch of a trace, the number of sleeps between it and the
fetch before it (for the first fetch: since the start of the run). -/
def sleepGaps (tr : List Event) : List Nat :=
  sleepGapsAux tr 0

/-- A sample record with the given id and timestamp (fixed glue fields),
for concrete runs. -/
def mkRec (i : String) (ts : Nat) : logInfo :=
  { id := i, content := { timestamp := ts, tags := [], host := "h", service := "s", message := "m" } }

/-- A page with the given records and cursor, for concrete runs. -/
def mkPage (ls : List logInfo) (cursor : String) : logsInfo :=
  { logs := ls, nextLogId := cursor, status := "done" }

/-- A concrete follow-mode configuration (as built by `newConfig` with
neither bound supplied at `now = 100000`). -/
def cfgFollowC : config :=
  { query := "", timeFrom := 70000, timeTo := 100000, limit := 1000
    follow := true, lastInfo := emptyLogsInfo }

/-- A concrete fixed-window configuration (as built by `newConfig` with
both bounds supplied). -/
def cfgFixedC : config :=
  { query := "", timeFrom := 1000, timeTo := 2000, limit := 1000
    follow := false, lastInfo := emptyLogsInfo }

/-- A concrete clock for the driver. -/
def nowC : Nat → Nat := fun i => 200000 + 15000 * i

/-- A concrete failing transport outcome: HTTP 500 with body `"oops"`. -/
def r500C : Response :=
  { status := 500, body := "oops", page := emptyLogsInfo }

/-! ## Helper lemmas -/

/-- The duplicate filter is a sublist of the page: it keeps records in
page order and never reorders. -/
theorem filterNew_sublist (prev logs : List logInfo) : List.Sublist (filterNew prev logs) logs :=
  List.filter_sublist logs

/-- Membership in the filtered page: a record survives iff it is in the
page and no record of the previous page has its id. -/
theorem mem_filterNew (prev logs : List logInfo) (l : logInfo) :
    l ∈ filterNew prev logs ↔ l ∈ logs ∧ ∀ p ∈ prev, p.id ≠ l.id := by
  simp [filterNew, List.mem_filter]

/-- `update` always stores the fetched page as `lastInfo` (replacing the
previous one, never merging). -/
theorem update_lastInfo (cfg : config) (info : logsInfo) (now : Nat) :
    (cfg.update info now).lastInfo = info := by
  unfold config.update
  split
  · rfl
  · split <;> rfl

/-- `update` never changes the `follow` flag. -/
theorem update_follow (cfg : config) (info : logsInfo) (now : Nat) :
    (cfg.update info now).follow = cfg.follow := by
  unfold config.update
  split
  · rfl
  · split <;> rfl

/-- The Paging branch of `update`: a non-empty cursor means only
`lastInfo` changes. -/
theorem update_paging (cfg : config) (info : logsInfo) (now : Nat)
    (h : info.nextLogId ≠ "") :
    cfg.update info now = { cfg with lastInfo := info } := by
  simp [config.update, h]

/-- A 2xx response decodes to its page. -/
theorem getLogs_ok (r : Response) (h : r.status / 100 = 2) :
    getLogs r = Except.ok r.page := by
  simp [getLogs, checkStatus, h]

/-- `showLogs` on a 2xx response: one fetch event and the filtered
records rendered in order, returning the page. -/
theorem showLogs_ok (cfg : config) (r : Response) (h : r.status / 100 = 2) :
    showLogs cfg r =
      (Event.fetch (buildRequest cfg) ::
        (filterNew cfg.lastInfo.logs r.page.logs).map Event.render,
       Except.ok r.page) := by
  simp [showLogs, getLogs_ok r h]

/-- With `follow` false the follow loop does nothing. -/
theorem followLoop_not_follow (fuel : Nat) (cfg : config) (logs : logsInfo)
    (rs : List Response) (nowF : Nat → Nat) (i : Nat) (hf : cfg.follow = false) :
    followLoop fuel cfg logs rs nowF i = ([], none) := by
  cases fuel <;> simp [followLoop, hf]

/-- `rendersOf` distributes over append. -/
theorem rendersOf_append (a b : List Event) :
    rendersOf (a ++ b) = rendersOf a ++ rendersOf b := by
  induction a with
  | nil => rfl
  | cons e t ih => cases e <;> simp [rendersOf, ih]

/-- Render events contribute their records, in order. -/
theorem rendersOf_map_render (l : List logInfo) (b : List Event) :
    rendersOf (l.map Event.render ++ b) = l ++ rendersOf b := by
  induction l with
  | nil => rfl
  | cons x t ih => simp [rendersOf, ih]

/-- Rendering only render events yields their records. -/
theorem rendersOf_map_render_only (l : List logInfo) :
    rendersOf (l.map Event.render) = l := by
  induction l with
  | nil => rfl
  | cons x t ih => simp [rendersOf, ih]

/-- One follow-loop iteration on a 2xx response, written out: a sleep,
the fetch with the updated state, the filtered records of the new page,
then the rest of the loop from the updated state. -/
theorem followLoop_succ_ok (fuel : Nat) (cfg : config) (logs : logsInfo)
    (r : Response) (rs' : List Response) (nowF : Nat → Nat) (i : Nat)
    (hf : cfg.follow = true) (hr : r.status / 100 = 2) :
    followLoop (fuel + 1) cfg logs (r :: rs') nowF i
      = (Event.sleep ::
          (Event.fetch (buildRequest (cfg.update logs (nowF i))) ::
            (filterNew logs.logs r.page.logs).map Event.render)
          ++ (followLoop fuel (cfg.update logs (nowF i)) r.page rs' nowF (i + 1)).1,
         (followLoop fuel (cfg.update logs (nowF i)) r.page rs' nowF (i + 1)).2) := by
  simp only [followLoop, hf, if_true, showLogs_ok _ r hr, update_lastInfo]

/-- The first fetch of a run on a 2xx response, written out. -/
theorem run_cons_ok (cfg : config) (r : Response) (rs' : List Response)
    (nowF : Nat → Nat) (fuel : Nat) (hr : r.status / 100 = 2) :
    run cfg (r :: rs') nowF fuel
      = ((Event.fetch (buildRequest cfg) ::
            (filterNew cfg.lastInfo.logs r.page.logs).map Event.render)
          ++ (followLoop fuel cfg r.page rs' nowF 0).1,
         (followLoop fuel cfg r.page rs' nowF 0).2) := by
  simp only [run, showLogs_ok cfg r hr]

/-- Bridge: the records rendered by the follow loop are exactly the
page-by-page filtered records (`renderRun`), one page per loop
iteration, starting from the previously fetched page. -/
theorem rendersOf_followLoop (fuel : Nat) (cfg : config) (logs : logsInfo)
    (rs : List Response) (nowF : Nat -> Nat) (i : Nat)
    (hf : cfg.follow = true) (hok : ∀ r ∈ rs, r.status / 100 = 2) :
    rendersOf (followLoop fuel cfg logs rs nowF i).1
      = renderRun logs.logs ((rs.map Response.page).take fuel) := by
  induction fuel generalizing cfg logs rs i with
  | zero => simp [followLoop, renderRun, rendersOf]
  | succ fuel ih =>
    cases rs with
    | nil => simp [followLoop, hf, renderRun, rendersOf]
    | cons r rs' =>
      have hr : r.status / 100 = 2 := hok r (by simp)
      have hok' : ∀ r' ∈ rs', r'.status / 100 = 2 := fun r' h => hok r' (by simp [h])
      have hfl : (cfg.update logs (nowF i)).follow = true := by
        rw [update_follow]; exact hf
      rw [followLoop_succ_ok fuel cfg logs r rs' nowF i hf hr]
      simp only [rendersOf, List.cons_append, List.append_eq, rendersOf_append, rendersOf_map_render_only]
      rw [ih _ _ _ _ hfl hok']
      simp [renderRun]

/-- Bridge: the records rendered over a whole run are the filtered
records of the successively fetched pages — all of them (up to fuel) in
follow mode, just the first page in fixed-window mode. -/
theorem rendersOf_run (cfg : config) (rs : List Response) (nowF : Nat -> Nat)
    (fuel : Nat) (hok : ∀ r ∈ rs, r.status / 100 = 2) :
    rendersOf (run cfg rs nowF fuel).1
      = renderRun cfg.lastInfo.logs
          ((rs.map Response.page).take (if cfg.follow then fuel + 1 else 1)) := by
  cases rs with
  | nil => simp [run, renderRun, rendersOf]
  | cons r rs' =>
    have hr : r.status / 100 = 2 := hok r (by simp)
    have hok' : ∀ r' ∈ rs', r'.status / 100 = 2 := fun r' h => hok r' (by simp [h])
    rw [run_cons_ok cfg r rs' nowF fuel hr]
    cases hf : cfg.follow with
    | false =>
      rw [followLoop_not_follow _ _ _ _ _ _ hf]
      simp [rendersOf, rendersOf_append, rendersOf_map_render_only, renderRun]
    | true =>
      simp only [rendersOf, List.cons_append, List.append_eq, rendersOf_append, rendersOf_map_render_only]
      rw [rendersOf_followLoop fuel cfg r.page rs' nowF 0 hf hok']
      simp [renderRun, rendersOf]

/-- Every id rendered by `renderRun` comes from one of the pages. -/
theorem mem_renderRun (x : String) (prev : List logInfo) (ps : List logsInfo)
    (h : x ∈ (renderRun prev ps).map logInfo.id) :
    ∃ q ∈ ps, x ∈ q.logs.map logInfo.id := by
  induction ps generalizing prev with
  | nil => simp [renderRun] at h
  | cons q qs ih =>
    simp only [renderRun, List.map_append, List.mem_append] at h
    rcases h with h | h
    · exact ⟨q, by simp, ((filterNew_sublist prev q.logs).map logInfo.id).subset h⟩
    · obtain ⟨r, hr, hx⟩ := ih q.logs h
      exact ⟨r, by simp [hr], hx⟩

/-- An id of the previous page is never rendered again by `renderRun`,
provided it does not recur in a page at distance two or more: the
immediately following page filters it out, and farther pages do not
contain it at all. -/
theorem not_mem_renderRun_far (x : String) (prev : List logInfo) (ps : List logsInfo)
    (hx : x ∈ prev.map logInfo.id)
    (hfar : ∀ q ∈ ps.drop 1, ∀ m ∈ q.logs, m.id ≠ x) :
    x ∉ (renderRun prev ps).map logInfo.id := by
  induction ps generalizing prev with
  | nil => simp [renderRun]
  | cons q qs ih =>
    intro hmem
    simp only [renderRun, List.map_append, List.mem_append] at hmem
    rcases hmem with h | h
    · obtain ⟨l, hl, hlx⟩ := List.mem_map.mp h
      rw [mem_filterNew] at hl
      obtain ⟨p, hp, hpx⟩ := List.mem_map.mp hx
      exact hl.2 p hp (by rw [hpx, hlx])
    · by_cases hq : x ∈ q.logs.map logInfo.id
      · refine ih q.logs hq ?_ h
        intro r hr m hm
        exact hfar r (List.mem_of_mem_drop hr) m hm
      · obtain ⟨r, hr, hxr⟩ := mem_renderRun x q.logs qs h
        obtain ⟨m, hm, hmx⟩ := List.mem_map.mp hxr
        exact hfar r hr m hm hmx

/-- The far-disjointness head of `onlyAdjacentOverlap`, unfolded. -/
theorem onlyAdjacentOverlap_cons (q : logsInfo) (qs : List logsInfo)
    (h : onlyAdjacentOverlap (q :: qs) = true) :
    (∀ p ∈ qs.drop 1, ∀ l ∈ q.logs, ∀ m ∈ p.logs, l.id ≠ m.id) ∧
      onlyAdjacentOverlap qs = true := by
  simp only [onlyAdjacentOverlap, Bool.and_eq_true, List.all_eq_true, bne_iff_ne] at h
  exact ⟨fun p hp l hl m hm => h.1 p hp l hl m hm, h.2⟩

/-- `onlyAdjacentOverlap` is preserved by taking a prefix. -/
theorem onlyAdjacentOverlap_take (l : List logsInfo) (n : Nat)
    (h : onlyAdjacentOverlap l = true) : onlyAdjacentOverlap (l.take n) = true := by
  induction l generalizing n with
  | nil => simp [onlyAdjacentOverlap]
  | cons p ps ih =>
    cases n with
    | zero => simp [onlyAdjacentOverlap]
    | succ n =>
      obtain ⟨hfar, htail⟩ := onlyAdjacentOverlap_cons p ps h
      simp only [List.take_succ_cons, onlyAdjacentOverlap, Bool.and_eq_true,
        List.all_eq_true, bne_iff_ne]
      refine ⟨?_, ih n htail⟩
      intro q hq l hl m hm
      have hq' : q ∈ ps.drop 1 := by
        rw [List.drop_take] at hq
        exact List.mem_of_mem_take hq
      exact hfar q hq' l hl m hm

/-- The heart of the dedup invariant: if every page has internally
distinct ids and ids recur only in adjacent pages, the one-page-deep
filter of `renderRun` renders each id at most once. -/
theorem renderRun_nodup (prev : List logInfo) (ps : List logsInfo)
    (h1 : ∀ p ∈ ps, (p.logs.map logInfo.id).Nodup)
    (h2 : onlyAdjacentOverlap ps = true) :
    ((renderRun prev ps).map logInfo.id).Nodup := by
  induction ps generalizing prev with
  | nil => simp [renderRun]
  | cons q qs ih =>
    obtain ⟨hfar, htail⟩ := onlyAdjacentOverlap_cons q qs h2
    simp only [renderRun, List.map_append]
    rw [List.nodup_append]
    refine ⟨?_, ?_, ?_⟩
    · exact List.Nodup.sublist ((filterNew_sublist prev q.logs).map logInfo.id)
        (h1 q (by simp))
    · exact ih q.logs (fun p hp => h1 p (by simp [hp])) htail
    · intro x hx
      have hxq : x ∈ q.logs.map logInfo.id :=
        ((filterNew_sublist prev q.logs).map logInfo.id).subset hx
      refine not_mem_renderRun_far x q.logs qs hxq ?_
      intro r hr m hm hmx
      obtain ⟨l, hl, hlx⟩ := List.mem_map.mp hxq
      exact hfar r hr l hl m hm (by rw [hlx, hmx])

/-- `showLogs` on a non-2xx response: one fetch event, then the fatal
formatted error. -/
theorem showLogs_err (cfg : config) (r : Response) (h : r.status / 100 ≠ 2) :
    showLogs cfg r =
      ([Event.fetch (buildRequest cfg)],
       Except.error ("unexpected status " ++ toString r.status ++ ": " ++ r.body)) := by
  simp [showLogs, getLogs, checkStatus, h]

/-- Render events contribute no fetch count. -/
theorem countFetch_map_render (l : List logInfo) :
    countFetch (l.map Event.render) = 0 := by
  induction l with
  | nil => rfl
  | cons x t ih => simp [countFetch, List.countP_cons, ih]

/-- Render events contribute no sleep count. -/
theorem countSleep_map_render (l : List logInfo) :
    countSleep (l.map Event.render) = 0 := by
  induction l with
  | nil => rfl
  | cons x t ih => simp [countSleep, List.countP_cons, ih]

/-- Skipping render events leaves the sleep-gap scan unchanged. -/
theorem sleepGapsAux_map_render (l : List logInfo) (t : List Event) (c : Nat) :
    sleepGapsAux (l.map Event.render ++ t) c = sleepGapsAux t c := by
  induction l with
  | nil => rfl
  | cons x xs ih => simp [sleepGapsAux, ih]

/-- Every sleep gap produced by the follow loop, scanned with `c` sleeps
already pending, is either those pending sleeps plus the one the loop
takes before its first fetch, or exactly 1 for the later fetches: the
loop sleeps exactly once before every fetch it performs. -/
theorem sleepGapsAux_followLoop (fuel : Nat) (cfg : config) (logs : logsInfo)
    (rs : List Response) (nowF : Nat -> Nat) (i c : Nat) (hf : cfg.follow = true) :
    ∀ g ∈ sleepGapsAux (followLoop fuel cfg logs rs nowF i).1 c, g = c + 1 ∨ g = 1 := by
  induction fuel generalizing cfg logs rs i c with
  | zero => simp [followLoop, sleepGapsAux]
  | succ fuel ih =>
    cases rs with
    | nil => simp [followLoop, hf, sleepGapsAux]
    | cons r rs' =>
      have hfl : (cfg.update logs (nowF i)).follow = true := by
        rw [update_follow]; exact hf
      by_cases hr : r.status / 100 = 2
      · rw [followLoop_succ_ok fuel cfg logs r rs' nowF i hf hr]
        intro g hg
        simp only [List.cons_append, List.append_eq, sleepGapsAux, sleepGapsAux_map_render] at hg
        rcases List.mem_cons.mp hg with h | h
        · exact Or.inl h
        · rcases ih (cfg.update logs (nowF i)) r.page rs' (i + 1) 0 hfl g h with h1 | h1
          · exact Or.inr h1
          · exact Or.inr h1
      · intro g hg
        simp only [followLoop, hf, if_true, showLogs_err _ r hr, sleepGapsAux] at hg
        rcases List.mem_singleton.mp hg with h
        exact Or.inl h

/-! ## Claim theorems -/

/-- C1: across one process run — any initial session state, any fuel —
if every fetched page has internally distinct record ids and a record id
recurs only in adjacent pages (the boundary overlap of consecutive time
windows), then the set of record ids rendered to standard output over
the whole run contains no duplicates: no record id is rendered twice. -/
theorem taildog_run_no_duplicate_render_ids (cfg : config) (rs : List Response)
    (nowF : Nat -> Nat) (fuel : Nat)
    (hok : ∀ r ∈ rs, r.status / 100 = 2)
    (hpages : ∀ r ∈ rs, (r.page.logs.map logInfo.id).Nodup)
    (hadj : onlyAdjacentOverlap (rs.map Response.page) = true) :
    ((rendersOf (run cfg rs nowF fuel).1).map logInfo.id).Nodup := by
  rw [rendersOf_run cfg rs nowF fuel hok]
  apply renderRun_nodup
  · intro p hp
    obtain ⟨r, hr, rfl⟩ := List.mem_map.mp (List.mem_of_mem_take hp)
    exact hpages r hr
  · exact onlyAdjacentOverlap_take _ _ hadj

/-- C1 witness: a two-page run whose pages overlap at the boundary
record `a`; the run renders `a` then `b` once each. -/
theorem taildog_run_no_duplicate_render_ids_witness :
    rendersOf (run cfgFollowC
        [okResponse (mkPage [mkRec "a" 1000] ""),
         okResponse (mkPage [mkRec "a" 1000, mkRec "b" 2000] "")] nowC 5).1
      = [mkRec "a" 1000, mkRec "b" 2000] ∧
    ((rendersOf (run cfgFollowC
        [okResponse (mkPage [mkRec "a" 1000] ""),
         okResponse (mkPage [mkRec "a" 1000, mkRec "b" 2000] "")] nowC 5).1).map
      logInfo.id).Nodup :=
  ⟨by decide,
   taildog_run_no_duplicate_render_ids cfgFollowC
     [okResponse (mkPage [mkRec "a" 1000] ""),
      okResponse (mkPage [mkRec "a" 1000, mkRec "b" 2000] "")] nowC 5
     (by decide) (by decide) (by decide)⟩

/-- C2 counterexample: an Advancing page (`nextCursor` empty) whose last
record has timestamp 1000 ms.  The claim says the new `window.from` is
that timestamp plus a positive offset of at least 1 ms, i.e. at least
1001; the code sets it to exactly 1000 (the timestamp copied verbatim,
`cfg.from = info.Logs[len(info.Logs)-1].Content.Timestamp`). -/
theorem taildog_advance_epsilon_refuted :
    (cfgFollowC.update (mkPage [mkRec "a" 1000] "") 2000).timeFrom = 1000 ∧
    ¬ 1000 + 1 ≤ (cfgFollowC.update (mkPage [mkRec "a" 1000] "") 2000).timeFrom := by
  decide

/-- C2 as amended: on an Advancing transition (empty `nextCursor`), if
the page has records then `window.from` becomes exactly the timestamp of
the last record (no offset — the boundary record is excluded from
re-rendering by the one-page dedup filter instead); if the page is empty
`window.from` is unchanged; in both cases `window.to` becomes the current
time. -/
theorem taildog_advance_from_exact_last_timestamp (cfg : config) (info : logsInfo)
    (now : Nat) (h : info.nextLogId = "") :
    (cfg.update info now).timeTo = now ∧
    (cfg.update info now).timeFrom =
      (match info.logs.getLast? with
       | some l => l.content.timestamp
       | none => cfg.timeFrom) := by
  simp only [config.update, h]
  cases hg : info.logs.getLast? <;> simp [hg]

/-- C2 witness: the amended transition at a concrete Advancing page. -/
theorem taildog_advance_from_exact_last_timestamp_witness :
    (cfgFollowC.update (mkPage [mkRec "a" 1000] "") 2000).timeTo = 2000 ∧
    (cfgFollowC.update (mkPage [mkRec "a" 1000] "") 2000).timeFrom =
      (match (mkPage [mkRec "a" 1000] "").logs.getLast? with
       | some l => l.content.timestamp
       | none => cfgFollowC.timeFrom) :=
  taildog_advance_from_exact_last_timestamp cfgFollowC (mkPage [mkRec "a" 1000] "") 2000 rfl

/-- C3 counterexample: fixed-window mode (`follow = false`), first page
carrying the non-empty continuation cursor `"abc"` and a second response
available.  The claim says the driver keeps fetching until a page with
an empty `nextCursor` is processed; the code performs exactly one fetch
and halts — the only page it processed still had a cursor. -/
theorem taildog_fixed_window_halts_mid_pagination :
    (mkPage [] "abc").nextLogId = "abc" ∧
    (run cfgFixedC [okResponse (mkPage [] "abc"), okResponse (mkPage [] "")] nowC 5).1
      = [Event.fetch (buildRequest cfgFixedC)] ∧
    countFetch (run cfgFixedC [okResponse (mkPage [] "abc"), okResponse (mkPage [] "")]
        nowC 5).1 = 1 := by
  decide

/-- C3 as amended: in fixed-window mode the driver performs exactly one
fetch/filter/render cycle and halts, never sleeping, regardless of the
page's `nextCursor` (the follow loop, the only place that pages on or
sleeps, runs only when `follow` is true). -/
theorem taildog_fixed_window_one_fetch_no_sleep (cfg : config) (r : Response)
    (rs' : List Response) (nowF : Nat -> Nat) (fuel : Nat) (hf : cfg.follow = false) :
    countFetch (run cfg (r :: rs') nowF fuel).1 = 1 ∧
    countSleep (run cfg (r :: rs') nowF fuel).1 = 0 := by
  by_cases hr : r.status / 100 = 2
  · rw [run_cons_ok cfg r rs' nowF fuel hr, followLoop_not_follow _ _ _ _ _ _ hf]
    simp [countFetch, countSleep, List.countP_append, List.countP_cons]
  · simp [run, showLogs_err cfg r hr, countFetch, countSleep]

/-- C3 witness: one fetch and no sleep on a concrete fixed-window run. -/
theorem taildog_fixed_window_one_fetch_no_sleep_witness :
    countFetch (run cfgFixedC [okResponse (mkPage [] "abc"), okResponse (mkPage [] "")]
        nowC 5).1 = 1 ∧
    countSleep (run cfgFixedC [okResponse (mkPage [] "abc"), okResponse (mkPage [] "")]
        nowC 5).1 = 0 :=
  taildog_fixed_window_one_fetch_no_sleep cfgFixedC (okResponse (mkPage [] "abc"))
    [okResponse (mkPage [] "")] nowC 5 rfl

/-- C4 counterexample: follow mode, first page returns the non-empty
cursor `"abc"`, so the second fetch is a paging continuation (its request
carries `startAt = "abc"`).  The claim says that fetch is issued
back-to-back with no interval sleep; the trace shows exactly one sleep
between the two fetches. -/
theorem taildog_paging_no_sleep_refuted :
    (mkPage [] "abc").nextLogId = "abc" ∧
    (buildRequest (cfgFollowC.update (mkPage [] "abc") (nowC 0))).startAt = some "abc" ∧
    (run cfgFollowC [okResponse (mkPage [] "abc"), okResponse (mkPage [] "")] nowC 5).1
      = [Event.fetch (buildRequest cfgFollowC), Event.sleep,
         Event.fetch (buildRequest (cfgFollowC.update (mkPage [] "abc") (nowC 0)))] := by
  decide

/-- C4 as amended: in follow mode, every fetch after the first — paging
continuation or window advance alike — is preceded by exactly one
interval sleep: the loop body sleeps unconditionally before calling
`update` and fetching again. -/
theorem taildog_follow_sleeps_before_every_fetch (cfg : config) (rs : List Response)
    (nowF : Nat -> Nat) (fuel : Nat) (g : Nat) (hf : cfg.follow = true)
    (hg : g ∈ (sleepGaps (run cfg rs nowF fuel).1).drop 1) : g = 1 := by
  cases rs with
  | nil => simp [run, sleepGaps, sleepGapsAux] at hg
  | cons r rs' =>
    by_cases hr : r.status / 100 = 2
    · rw [run_cons_ok cfg r rs' nowF fuel hr] at hg
      simp only [sleepGaps, List.cons_append, List.append_eq, sleepGapsAux,
        sleepGapsAux_map_render, List.drop_succ_cons, List.drop_zero] at hg
      rcases sleepGapsAux_followLoop fuel cfg r.page rs' nowF 0 0 hf g hg with h | h
      · simpa using h
      · exact h
    · simp [run, showLogs_err cfg r hr, sleepGaps, sleepGapsAux] at hg

/-- C4 witness: on the concrete paging run of the counterexample, the
gap before the second (paging) fetch is one sleep. -/
theorem taildog_follow_sleeps_before_every_fetch_witness :
    1 ∈ (sleepGaps (run cfgFollowC
        [okResponse (mkPage [] "abc"), okResponse (mkPage [] "")] nowC 5).1).drop 1 ∧
    (1 : Nat) = 1 :=
  ⟨by decide,
   taildog_follow_sleeps_before_every_fetch cfgFollowC
     [okResponse (mkPage [] "abc"), okResponse (mkPage [] "")] nowC 5 1 rfl (by decide)⟩

/-- C5: a page with a non-empty `nextCursor` leaves the whole window
(`from` and `to`) and every other setting (query, limit, follow flag)
unchanged — only `lastInfo` is stored — and the next outbound request
carries that cursor as its `startAt` field. -/
theorem taildog_paging_keeps_window_sets_cursor (cfg : config) (info : logsInfo)
    (now : Nat) (h : info.nextLogId ≠ "") :
    (cfg.update info now).timeFrom = cfg.timeFrom ∧
    (cfg.update info now).timeTo = cfg.timeTo ∧
    (cfg.update info now).query = cfg.query ∧
    (cfg.update info now).limit = cfg.limit ∧
    (cfg.update info now).follow = cfg.follow ∧
    (buildRequest (cfg.update info now)).startAt = some info.nextLogId := by
  rw [update_paging cfg info now h]
  simp [buildRequest, h]

/-- C5 witness: the paging transition at a concrete page with cursor
`"abc"`. -/
theorem taildog_paging_keeps_window_sets_cursor_witness :
    (cfgFollowC.update (mkPage [] "abc") 12345).timeFrom = cfgFollowC.timeFrom ∧
    (cfgFollowC.update (mkPage [] "abc") 12345).timeTo = cfgFollowC.timeTo ∧
    (cfgFollowC.update (mkPage [] "abc") 12345).query = cfgFollowC.query ∧
    (cfgFollowC.update (mkPage [] "abc") 12345).limit = cfgFollowC.limit ∧
    (cfgFollowC.update (mkPage [] "abc") 12345).follow = cfgFollowC.follow ∧
    (buildRequest (cfgFollowC.update (mkPage [] "abc") 12345)).startAt = some "abc" :=
  taildog_paging_keeps_window_sets_cursor cfgFollowC (mkPage [] "abc") 12345 (by decide)

/-- C6: a record of a freshly fetched page is rendered iff its id does
not appear among the ids of the records of the immediately preceding
fetched page; and on the first fetch of a run the predecessor stored by
`newConfig` is the empty page, so every record of the first page is
rendered. -/
theorem taildog_novelty_filter_membership (q : String) (lim : Nat) (now : Nat)
    (cfg0 : config) (prev page : logsInfo) (l : logInfo) :
    (l ∈ filterNew prev.logs page.logs ↔
      l ∈ page.logs ∧ ∀ p ∈ prev.logs, p.id ≠ l.id) ∧
    (newConfig q lim none none now = Except.ok cfg0 →
      filterNew cfg0.lastInfo.logs page.logs = page.logs) := by
  constructor
  · exact mem_filterNew prev.logs page.logs l
  · intro h
    simp only [newConfig, Except.ok.injEq] at h
    subst h
    simp [filterNew, emptyLogsInfo]

/-- C6 witness: record `b` of the second page survives the filter
against a first page containing only `a`, and the whole first page
passes the filter against the startup `lastInfo`. -/
theorem taildog_novelty_filter_membership_witness :
    mkRec "b" 2000 ∈ filterNew (mkPage [mkRec "a" 1000] "").logs
      (mkPage [mkRec "a" 1000, mkRec "b" 2000] "").logs ∧
    filterNew cfgFollowC.lastInfo.logs (mkPage [mkRec "a" 1000, mkRec "b" 2000] "").logs
      = (mkPage [mkRec "a" 1000, mkRec "b" 2000] "").logs :=
  ⟨(taildog_novelty_filter_membership "" 1000 100000 cfgFollowC
      (mkPage [mkRec "a" 1000] "") (mkPage [mkRec "a" 1000, mkRec "b" 2000] "")
      (mkRec "b" 2000)).1.mpr ⟨by decide, by decide⟩,
   (taildog_novelty_filter_membership "" 1000 100000 cfgFollowC
      (mkPage [mkRec "a" 1000] "") (mkPage [mkRec "a" 1000, mkRec "b" 2000] "")
      (mkRec "b" 2000)).2 rfl⟩

/-- C7: the dedup horizon is exactly one page deep.  Storing a new page
replaces the previous one (`lastInfo` after two updates is the second
page, whatever the first was); a record of the third page whose id
occurs in the immediately preceding page is filtered out, and one whose
id does not occur there is rendered — both regardless of the page two
fetches ago. -/
theorem taildog_dedup_horizon_one_page (cfg : config) (p1 p2 p3 : logsInfo)
    (t1 t2 : Nat) (l : logInfo) (hl : l ∈ p3.logs) :
    ((cfg.update p1 t1).update p2 t2).lastInfo = p2 ∧
    ((∃ m ∈ p2.logs, m.id = l.id) →
      l ∉ filterNew ((cfg.update p1 t1).update p2 t2).lastInfo.logs p3.logs) ∧
    ((∀ m ∈ p2.logs, m.id ≠ l.id) →
      l ∈ filterNew ((cfg.update p1 t1).update p2 t2).lastInfo.logs p3.logs) := by
  refine ⟨update_lastInfo _ p2 t2, ?_, ?_⟩
  · rintro ⟨m, hm, hmid⟩ hmem
    rw [update_lastInfo, mem_filterNew] at hmem
    exact hmem.2 m hm hmid
  · intro h
    rw [update_lastInfo, mem_filterNew]
    exact ⟨hl, h⟩

/-- C7 witness: pages `[x]`, `[y]`, `[x, y]`.  After the two updates the
stored page is `[y]` (replaced, not merged); the third page's `y` (present
one page ago) is filtered although absent two pages ago, while its `x`
(present two pages ago, absent one page ago) is rendered again. -/
theorem taildog_dedup_horizon_one_page_witness :
    ((cfgFollowC.update (mkPage [mkRec "x" 1] "") 10).update
        (mkPage [mkRec "y" 2] "") 20).lastInfo = mkPage [mkRec "y" 2] "" ∧
    mkRec "y" 4 ∉ filterNew ((cfgFollowC.update (mkPage [mkRec "x" 1] "") 10).update
        (mkPage [mkRec "y" 2] "") 20).lastInfo.logs
        (mkPage [mkRec "x" 3, mkRec "y" 4] "").logs ∧
    mkRec "x" 3 ∈ filterNew ((cfgFollowC.update (mkPage [mkRec "x" 1] "") 10).update
        (mkPage [mkRec "y" 2] "") 20).lastInfo.logs
        (mkPage [mkRec "x" 3, mkRec "y" 4] "").logs :=
  ⟨(taildog_dedup_horizon_one_page cfgFollowC (mkPage [mkRec "x" 1] "")
      (mkPage [mkRec "y" 2] "") (mkPage [mkRec "x" 3, mkRec "y" 4] "") 10 20
      (mkRec "y" 4) (by decide)).1,
   (taildog_dedup_horizon_one_page cfgFollowC (mkPage [mkRec "x" 1] "")
      (mkPage [mkRec "y" 2] "") (mkPage [mkRec "x" 3, mkRec "y" 4] "") 10 20
      (mkRec "y" 4) (by decide)).2.1 ⟨mkRec "y" 2, by decide, rfl⟩,
   (taildog_dedup_horizon_one_page cfgFollowC (mkPage [mkRec "x" 1] "")
      (mkPage [mkRec "y" 2] "") (mkPage [mkRec "x" 3, mkRec "y" 4] "") 10 20
      (mkRec "x" 3) (by decide)).2.2 (by decide)⟩

/-- C8: a response with a status outside the 2xx class makes the fetch
fail with the error `"unexpected status <code>: <body>"` — which carries
both the numeric status code and the response body — and the error is
fatal: whether it is the first fetch of the run or any later iteration
of the follow loop, the run ends at that single fetch with the error and
no retry is attempted. -/
theorem taildog_non2xx_fatal_no_retry (cfg : config) (r : Response)
    (rs' : List Response) (nowF : Nat -> Nat) (fuel fuel' : Nat)
    (logs : logsInfo) (i : Nat) (h : r.status / 100 ≠ 2) :
    getLogs r = Except.error
      ("unexpected status " ++ toString r.status ++ ": " ++ r.body) ∧
    run cfg (r :: rs') nowF fuel
      = ([Event.fetch (buildRequest cfg)],
         some ("unexpected status " ++ toString r.status ++ ": " ++ r.body)) ∧
    (cfg.follow = true →
      followLoop (fuel' + 1) cfg logs (r :: rs') nowF i
        = ([Event.sleep, Event.fetch (buildRequest (cfg.update logs (nowF i)))],
           some ("unexpected status " ++ toString r.status ++ ": " ++ r.body))) := by
  refine ⟨?_, ?_, ?_⟩
  · simp [getLogs, checkStatus, h]
  · simp [run, showLogs_err cfg r h]
  · intro hf
    simp [followLoop, hf, showLogs_err _ r h]

/-- C8 witness: status 500 with body `"oops"`: the literal error is
`"unexpected status 500: oops"` and a fixed-window run on it performs
the single fetch and stops with that error. -/
theorem taildog_non2xx_fatal_no_retry_witness :
    getLogs r500C = Except.error
      ("unexpected status " ++ toString r500C.status ++ ": " ++ r500C.body) ∧
    run cfgFixedC (r500C :: []) nowC 3
      = ([Event.fetch (buildRequest cfgFixedC)],
         some ("unexpected status " ++ toString r500C.status ++ ": " ++ r500C.body)) ∧
    ("unexpected status " ++ toString r500C.status ++ ": " ++ r500C.body)
      = "unexpected status 500: oops" :=
  ⟨(taildog_non2xx_fatal_no_retry cfgFixedC r500C [] nowC 3 0 emptyLogsInfo 0
      (by decide)).1,
   (taildog_non2xx_fatal_no_retry cfgFixedC r500C [] nowC 3 0 emptyLogsInfo 0
      (by decide)).2.1,
   by decide⟩

/-- C9: the records a fetch renders form a sublist of the fetched page's
record list: the novelty filter keeps the page's relative order, so the
rendered output is an order-preserving subsequence of the page. -/
theorem taildog_render_order_preserving (cfg : config) (r : Response) :
    List.Sublist (rendersOf (showLogs cfg r).1) r.page.logs := by
  by_cases hr : r.status / 100 = 2
  · rw [showLogs_ok cfg r hr]
    simp only [rendersOf, rendersOf_map_render_only]
    exact filterNew_sublist _ _
  · rw [showLogs_err cfg r hr]
    simp only [rendersOf]
    exact List.nil_sublist _

/-- C10: the novelty filter never deduplicates within a single page: a
record whose id is absent from the previous page keeps its full
multiplicity — if it occurs twice in the page, both occurrences
survive. -/
theorem taildog_no_intra_page_dedup (prev logs : List logInfo) (l : logInfo)
    (h : ∀ p ∈ prev, p.id ≠ l.id) :
    (filterNew prev logs).count l = logs.count l := by
  unfold filterNew
  apply List.count_filter
  simp only [Bool.not_eq_eq_eq_not, Bool.not_true, List.any_eq_false]
  intro p hp
  simp [h p hp]

/-- C10 witness: a page containing the same record twice, its id absent
from the previous page: both occurrences are kept (count 2). -/
theorem taildog_no_intra_page_dedup_witness :
    (filterNew [mkRec "a" 1] [mkRec "x" 2, mkRec "x" 2]).count (mkRec "x" 2)
      = ([mkRec "x" 2, mkRec "x" 2] : List logInfo).count (mkRec "x" 2) ∧
    ([mkRec "x" 2, mkRec "x" 2] : List logInfo).count (mkRec "x" 2) = 2 :=
  ⟨taildog_no_intra_page_dedup [mkRec "a" 1] [mkRec "x" 2, mkRec "x" 2]
      (mkRec "x" 2) (by decide),
   by decide⟩
